import Mathlib

/-!
Verification of the model-promotion decision workflow of the
product-delivery-ETA repository.

The embedding models, from the source:
  - the MLflow model registry for the single model "delivery-eta-model":
    a list of versions each carrying a lifecycle stage
    (`get_latest_versions`, `transition_model_version_stage`);
  - the evaluation script `scripts/evaluate.py` (module top level):
    load the Production and Staging models, score both on the same
    feature matrix, and promote the Staging version when its metric is
    strictly smaller;
  - the registry-touching prefix of `deploy_production_model` in
    `scripts/deploy.py`;
  - the Staging promotion performed at the end of `train_model` in
    `scripts/train.py`;
  - the step sequencing of `main` in `run_pipeline.py`.

Numeric note: the source computes `mean_squared_error(..., squared=False)`
(the square root of the mean squared error) over floats and compares the
two values.  The embedding works in `ℚ` and lets the decision compare the
mean squared errors themselves; `sqrt_mse_lt_iff` below proves that the
comparison of square roots agrees with the comparison of the radicands,
so the branch taken is the same.
-/

namespace DeliveryEta

/-- Lifecycle stage of a registered model version (MLflow stages
"None", "Staging", "Production", "Archived"). -/
inductive Stage where
  | none
  | staging
  | production
  | archived
deriving DecidableEq

/-- One registered version of the model: its (unique) version number and
its current stage.  Artifact locations are keyed by the version number in
the environment below. -/
structure ModelVersion where
  version : Nat
  stage : Stage
deriving DecidableEq

/-- The registry state for the single model name "delivery-eta-model":
the list of its registered versions. -/
abbrev RegistryState := List ModelVersion

/-- MlflowClient.get_latest_versions(name, [stage]) returns at most one
version per requested stage: the one with the highest version number among
those currently in that stage.  Embedded as an `Option`. -/
def get_latest_versions : RegistryState → Stage → Option ModelVersion
  | [], _ => Option.none
  | v :: rest, s =>
    match get_latest_versions rest s with
    | Option.none => if v.stage = s then some v else Option.none
    | some w => if v.stage = s ∧ w.version < v.version then some v else some w

/-- Effect of MlflowClient.transition_model_version_stage on one registry
entry: the named version moves to the new stage; when
`archive_existing_versions` is set, every other version currently in the
target stage is moved to Archived. -/
def transOne (ver : Nat) (newStage : Stage) (archiveExisting : Bool)
    (v : ModelVersion) : ModelVersion :=
  if v.version = ver then { v with stage := newStage }
  else if archiveExisting = true ∧ v.stage = newStage then { v with stage := Stage.archived }
  else v

/-- MlflowClient.transition_model_version_stage(name, ver, newStage,
archive_existing_versions). -/
def transition_model_version_stage (st : RegistryState) (ver : Nat)
    (newStage : Stage) (archiveExisting : Bool) : RegistryState :=
  st.map (transOne ver newStage archiveExisting)

/-- The version numbers currently in a given stage (used to state
"exactly one version is in Production"). -/
def versionsInStage : RegistryState → Stage → List Nat
  | [], _ => []
  | v :: rest, s =>
    if v.stage = s then v.version :: versionsInStage rest s
    else versionsInStage rest s

/-- One row of the held-out evaluation dataset `/tmp/data.csv`: the seven
numeric feature columns and the target column of `scripts/evaluate.py`. -/
structure Row where
  product_weight_g : ℚ
  product_volume_cm3 : ℚ
  price : ℚ
  freight_value : ℚ
  purchase_hour : ℚ
  purchase_day_of_week : ℚ
  purchase_month : ℚ
  delivery_duration_days : ℚ
deriving DecidableEq

/-- The feature-column list of `scripts/evaluate.py` (line 12), in source
order. -/
def features : List String :=
  ["product_weight_g", "product_volume_cm3", "price", "freight_value",
   "purchase_hour", "purchase_day_of_week", "purchase_month"]

/-- Name-based column selection (pandas `df[col]`). -/
def featureValue (r : Row) : String → ℚ
  | "product_weight_g" => r.product_weight_g
  | "product_volume_cm3" => r.product_volume_cm3
  | "price" => r.price
  | "freight_value" => r.freight_value
  | "purchase_hour" => r.purchase_hour
  | "purchase_day_of_week" => r.purchase_day_of_week
  | "purchase_month" => r.purchase_month
  | _ => 0

/-- The feature matrix `X = df[features]`: for each row the seven named
columns, in the order of `features`. -/
def featureMatrix (df : List Row) : List (List ℚ) :=
  df.map (fun r => features.map (featureValue r))

/-- The target vector `y`, the delivery_duration_days column. -/
def target (df : List Row) : List ℚ :=
  df.map (fun r => r.delivery_duration_days)

/-- The sklearn mean_squared_error with `squared=True`: the mean of the
squared residuals.  The source calls it with `squared=False` (its square
root); `sqrt_mse_lt_iff` shows both orders of comparison agree, so the
decision below compares these values directly. -/
def mean_squared_error (y p : List ℚ) : ℚ :=
  (((y.zip p).map (fun q => (q.1 - q.2) ^ 2)).sum) / (y.length : ℚ)

/-- A loaded model handle: `predict` over a feature matrix
(mlflow.pyfunc model). -/
abbrev PredictFn := List (List ℚ) → List ℚ

/-- Outcome of one evaluation call, the outcome labels of the §3
`PromotionDecision` record of the spec, attached to the branches of `scripts/evaluate.py`:
`promote` is the `stag_rmse < prod_rmse` branch, `keepIncumbent` the
other branch.  `promoteNoIncumbent` is the spec label for a first-ever
deployment; the script has no branch producing it. -/
inductive Outcome where
  | promote
  | keepIncumbent
  | promoteNoIncumbent
deriving DecidableEq

/-- The §3 `PromotionDecision` record of the spec, populated from the values
the script computes on the corresponding branch. -/
structure PromotionDecision where
  candidate_version : Nat
  incumbent_version : Option Nat
  candidate_metric : ℚ
  incumbent_metric : Option ℚ
  outcome : Outcome
deriving DecidableEq

/-- Typed errors of an evaluation call.  `noVersionInStage s` is the
MlflowException raised when `models:/delivery-eta-model/<s>` resolves no
version (for `s = Staging` this is the `NoCandidateError` of the spec);
`artifactLoadError` and `registryUnavailable` model collaborator
failures (`ArtifactLoadError` / `RegistryUnavailableError` in the spec);
`scoringError` models a failing `predict` call. -/
inductive EvalError where
  | noVersionInStage (s : Stage)
  | artifactLoadError (s : Stage)
  | scoringError
  | registryUnavailable
deriving DecidableEq

/-- Injected collaborator failures, one flag per external call site of
`scripts/evaluate.py`: the two `mlflow.pyfunc.load_model` calls, the two
`predict` calls, the `get_latest_versions` call and the
`transition_model_version_stage` call. -/
structure Faults where
  loadProductionFails : Bool
  loadStagingFails : Bool
  scoringFails : Bool
  stagingLookupFails : Bool
  transitionFails : Bool
deriving DecidableEq

/-- The fault-free profile. -/
def noFaults : Faults :=
  { loadProductionFails := false, loadStagingFails := false,
    scoringFails := false, stagingLookupFails := false,
    transitionFails := false }

/-- Which load-call-site flag governs loading a model from a stage. -/
def loadFailFlag (f : Faults) : Stage → Bool
  | Stage.production => f.loadProductionFails
  | Stage.staging => f.loadStagingFails
  | _ => false

/-- The collaborators of one evaluation call: the registry state, the
held-out dataset (already downloaded and parsed), the artifact store
(version number to loaded model) and the injected failures. -/
structure Env where
  registry : RegistryState
  dataset : List Row
  artifacts : Nat → PredictFn
  faults : Faults

/-- mlflow.pyfunc.load_model("models:/delivery-eta-model/<s>"): resolve
the latest version in stage `s` (failing when none exists), then fetch
its artifact (failing when the injected flag for this call site is
set). -/
def load_model (env : Env) (s : Stage) : Except EvalError PredictFn :=
  match get_latest_versions env.registry s with
  | Option.none => Except.error (EvalError.noVersionInStage s)
  | some v =>
    if loadFailFlag env.faults s = true then Except.error (EvalError.artifactLoadError s)
    else Except.ok (env.artifacts v.version)

/-- The metric the script computes for the model stored at a version:
mean squared error of its predictions over the feature matrix against
the target vector. -/
def metricOf (env : Env) (v : ModelVersion) : ℚ :=
  mean_squared_error (target env.dataset)
    (env.artifacts v.version (featureMatrix env.dataset))

/-- The decision record of the promote branch. -/
def promoteRecord (env : Env) (prodMse stagMse : ℚ) (cand : ModelVersion) :
    PromotionDecision :=
  { candidate_version := cand.version
    incumbent_version :=
      (get_latest_versions env.registry Stage.production).map (fun v => v.version)
    candidate_metric := stagMse
    incumbent_metric := some prodMse
    outcome := Outcome.promote }

/-- The decision record of the keep branch. -/
def keepRecord (env : Env) (prodMse stagMse : ℚ) : PromotionDecision :=
  { candidate_version :=
      ((get_latest_versions env.registry Stage.staging).map
        (fun v => v.version)).getD 0
    incumbent_version :=
      (get_latest_versions env.registry Stage.production).map (fun v => v.version)
    candidate_metric := stagMse
    incumbent_metric := some prodMse
    outcome := Outcome.keepIncumbent }

/-- Decision tail of `scripts/evaluate.py` (lines 24-29), after both
metrics are computed: on `stag_rmse < prod_rmse`, re-read the latest
Staging version and transition it to Production archiving the existing
Production versions; otherwise keep the current Production model and
leave the registry untouched.  The empty-lookup branch models the
IndexError of `[0]` on an empty list; it is unreachable after a
successful Staging load with no intervening mutation. -/
def evalDecide (env : Env) (prodMse stagMse : ℚ) :
    Except EvalError PromotionDecision × RegistryState :=
  if stagMse < prodMse then
    if env.faults.stagingLookupFails = true then
      (Except.error EvalError.registryUnavailable, env.registry)
    else
      match get_latest_versions env.registry Stage.staging with
      | Option.none => (Except.error (EvalError.noVersionInStage Stage.staging), env.registry)
      | some cand =>
        if env.faults.transitionFails = true then
          (Except.error EvalError.registryUnavailable, env.registry)
        else
          (Except.ok (promoteRecord env prodMse stagMse cand),
           transition_model_version_stage env.registry cand.version Stage.production true)
  else
    (Except.ok (keepRecord env prodMse stagMse), env.registry)

/-- Module top level of `scripts/evaluate.py`: load the Production model
(line 16, unconditionally — a missing Production version makes this call
raise), load the Staging model (line 17), score both on the same feature
matrix and target (lines 19-21), then decide (lines 24-29). -/
def evaluate (env : Env) : Except EvalError PromotionDecision × RegistryState :=
  match load_model env Stage.production with
  | Except.error e => (Except.error e, env.registry)
  | Except.ok prodFn =>
    match load_model env Stage.staging with
    | Except.error e => (Except.error e, env.registry)
    | Except.ok stagFn =>
      if env.faults.scoringFails = true then
        (Except.error EvalError.scoringError, env.registry)
      else
        evalDecide env
          (mean_squared_error (target env.dataset) (prodFn (featureMatrix env.dataset)))
          (mean_squared_error (target env.dataset) (stagFn (featureMatrix env.dataset)))

/-- Registry effect of the Staging promotion at the end of `train_model`
in `scripts/train.py` (lines 119-125): the latest version in stage None
is transitioned to Staging (no archiving flag).  When no such version
exists the source raises an IndexError before any write, leaving the
registry unchanged. -/
def train_model_promotion (st : RegistryState) : RegistryState :=
  match get_latest_versions st Stage.none with
  | Option.none => st
  | some v => transition_model_version_stage st v.version Stage.staging false

/-- Result labels for the registry-touching prefix of
`deploy_production_model`. -/
inductive DeployOutcome where
  | registryError
  | noModels
  | usedProduction (v : Nat)
  | promotedStaging (v : Nat)
deriving DecidableEq

/-- Registry-touching prefix of `deploy_production_model` in
`scripts/deploy.py` (lines 51-77): if the registry read raises, return
the failure; if a Production version exists, deploy it unchanged; else
if a Staging version exists, transition it to Production (no archiving
flag, no model loading, no metric) and deploy it; else report no models.
The SageMaker packaging that follows never touches the registry and is
out of scope. -/
def deploy_production_model (st : RegistryState) (registryFails : Bool) :
    DeployOutcome × RegistryState :=
  if registryFails = true then (DeployOutcome.registryError, st)
  else
    match get_latest_versions st Stage.production with
    | some pv => (DeployOutcome.usedProduction pv.version, st)
    | Option.none =>
      match get_latest_versions st Stage.staging with
      | Option.none => (DeployOutcome.noModels, st)
      | some sv =>
        (DeployOutcome.promotedStaging sv.version,
         transition_model_version_stage st sv.version Stage.production false)

/-- The stage transitions the §4.1 state machine of the spec allows, plus
staying put: None to Staging, Staging to Production, Staging to
Archived, Production to Archived. -/
def allowedStep (s s2 : Stage) : Bool :=
  if s = s2 then true
  else
    match s, s2 with
    | Stage.none, Stage.staging => true
    | Stage.staging, Stage.production => true
    | Stage.staging, Stage.archived => true
    | Stage.production, Stage.archived => true
    | _, _ => false

/-- Every version present in both states moved only along an allowed
step (versions are matched by their unique version number). -/
def stagesStep (st st2 : RegistryState) : Prop :=
  ∀ v ∈ st, ∀ v2 ∈ st2, v2.version = v.version →
    allowedStep v.stage v2.stage = true

/-- Training mode flag of `run_pipeline.py` (`--mode`). -/
inductive Mode where
  | localMode
  | sagemakerMode
  | fullMode
deriving DecidableEq

/-- Exit statuses of the five subprocess steps `main` may run
(`run_command` maps a zero return code to True). -/
structure StepResults where
  trainOk : Bool
  sagemakerTrainOk : Bool
  evalOk : Bool
  deployOk : Bool
  monitorOk : Bool
deriving DecidableEq

/-- Observable trace of one `main` run of `run_pipeline.py`: whether the
evaluation and deployment steps were started, whether the
"Evaluation failed, but continuing" warning was printed, and the process
exit code. -/
structure PipelineTrace where
  ranEvaluation : Bool
  ranDeployment : Bool
  warnedEvaluationFailed : Bool
  exitCode : Nat
deriving DecidableEq

/-- Whether `main` reaches the evaluation step: training is skipped, or
the mode-selected training step succeeds (in full mode both training
results are ignored). -/
def trainingGatePasses (mode : Mode) (skipTraining : Bool) (r : StepResults) : Bool :=
  if skipTraining = true then true
  else
    match mode with
    | Mode.localMode => r.trainOk
    | Mode.sagemakerMode => r.sagemakerTrainOk
    | Mode.fullMode => true

/-- `main` of `run_pipeline.py` (lines 65-139): a failed training step
(local or sagemaker mode) exits with code 1 before evaluation; a failed
evaluation step only prints a warning and the run continues; a failed
deployment step exits with code 1; otherwise the run exits with code 0
(the result of the optional monitoring step is ignored). -/
def pipelineMain (mode : Mode) (skipTraining : Bool) (r : StepResults) :
    PipelineTrace :=
  if trainingGatePasses mode skipTraining r = false then
    { ranEvaluation := false, ranDeployment := false,
      warnedEvaluationFailed := false, exitCode := 1 }
  else
    { ranEvaluation := true, ranDeployment := true,
      warnedEvaluationFailed := !r.evalOk,
      exitCode := if r.deployOk = false then 1 else 0 }

/-- A fixed dataset row used by the concrete test states below. -/
def row0 : Row :=
  { product_weight_g := 1, product_volume_cm3 := 2, price := 3,
    freight_value := 4, purchase_hour := 5, purchase_day_of_week := 6,
    purchase_month := 7, delivery_duration_days := 5 }

/-- A model that predicts the same value for every row. -/
def constPredict (q : ℚ) : PredictFn := fun rows => rows.map (fun _ => q)

/-- Registry with a Staging version only (first-ever deployment state). -/
def envNoProd : Env :=
  { registry := [{ version := 1, stage := Stage.staging }],
    dataset := [row0], artifacts := fun _ => constPredict 5,
    faults := noFaults }

/-- Empty registry: neither a Staging nor a Production version. -/
def envEmpty : Env :=
  { registry := [], dataset := [row0],
    artifacts := fun _ => constPredict 5, faults := noFaults }

/-- Registry with a Production version only. -/
def envProdOnly : Env :=
  { registry := [{ version := 1, stage := Stage.production }],
    dataset := [row0], artifacts := fun _ => constPredict 5,
    faults := noFaults }

/-- Incumbent version 1 in Production, candidate version 2 in Staging;
the candidate predicts the target exactly, the incumbent is off by 2. -/
def envPromote : Env :=
  { registry := [{ version := 1, stage := Stage.production },
                 { version := 2, stage := Stage.staging }],
    dataset := [row0],
    artifacts := fun v => if v = 2 then constPredict 5 else constPredict 7,
    faults := noFaults }

/-- Incumbent version 1 in Production, candidate version 2 in Staging;
the incumbent predicts the target exactly, the candidate is off by 2. -/
def envKeep : Env :=
  { registry := [{ version := 1, stage := Stage.production },
                 { version := 2, stage := Stage.staging }],
    dataset := [row0],
    artifacts := fun v => if v = 2 then constPredict 7 else constPredict 5,
    faults := noFaults }

/-- Same state as `envPromote` but the Production artifact fetch fails. -/
def envFault : Env :=
  { envPromote with faults := { noFaults with loadProductionFails := true } }

/-- The decision record `evaluate` produces on `envKeep`. -/
def keepDecision : PromotionDecision :=
  keepRecord envKeep
    (metricOf envKeep { version := 1, stage := Stage.production })
    (metricOf envKeep { version := 2, stage := Stage.staging })

/-- Registry with a single Staging version, number 3. -/
def stagingOnly : RegistryState := [{ version := 3, stage := Stage.staging }]

/-- Step results where evaluation and deployment both fail. -/
def stepsEvalDeployFail : StepResults :=
  { trainOk := true, sagemakerTrainOk := true, evalOk := false,
    deployOk := false, monitorOk := true }

/-- Two registry entries with the same version number are the same entry
when the version numbers of the state are pairwise distinct. -/
theorem version_inj {st : RegistryState}
    (h : (st.map (fun v => v.version)).Nodup)
    {a b : ModelVersion} (ha : a ∈ st) (hb : b ∈ st)
    (hv : a.version = b.version) : a = b := by
  induction st with
  | nil => cases ha
  | cons w rest ih =>
    simp only [List.map_cons, List.nodup_cons] at h
    rcases List.mem_cons.mp ha with rfl | ha2
    · rcases List.mem_cons.mp hb with rfl | hb2
      · rfl
      · exact absurd (by rw [hv]; exact List.mem_map_of_mem (fun v => v.version) hb2) h.1
    · rcases List.mem_cons.mp hb with rfl | hb2
      · exact absurd (by rw [← hv]; exact List.mem_map_of_mem (fun v => v.version) ha2) h.1
      · exact ih h.2 ha2 hb2

/-- The version returned by `get_latest_versions` belongs to the state
and is in the requested stage. -/
theorem get_latest_mem {s : Stage} :
    ∀ {st : RegistryState} {v : ModelVersion},
      get_latest_versions st s = some v → v ∈ st ∧ v.stage = s := by
  intro st
  induction st with
  | nil => intro v h; simp [get_latest_versions] at h
  | cons w rest ih =>
    intro v h
    rw [get_latest_versions] at h
    split at h
    · split at h
      · injection h with h2
        subst h2
        refine ⟨List.mem_cons_self w rest, ?_⟩
        assumption
      · exact Option.noConfusion h
    · next w2 heq =>
      split at h
      · injection h with h2
        subst h2
        next hcond => exact ⟨List.mem_cons_self w rest, hcond.1⟩
      · injection h with h2
        subst h2
        rcases ih heq with ⟨hmem, hstage⟩
        exact ⟨List.mem_cons_of_mem w hmem, hstage⟩

/-- `transOne` never changes the version number. -/
theorem transOne_version (ver : Nat) (ns : Stage) (ae : Bool) (v : ModelVersion) :
    (transOne ver ns ae v).version = v.version := by
  unfold transOne
  split
  · rfl
  · split <;> rfl

/-- Under distinct version numbers, the entry of the mapped state that
carries the version number of `a` is exactly the image of `a`. -/
theorem mem_map_version_eq {st : RegistryState} {f : ModelVersion → ModelVersion}
    (hver : ∀ v, (f v).version = v.version)
    (hnodup : (st.map (fun v => v.version)).Nodup)
    {a : ModelVersion} (ha : a ∈ st) :
    ∀ v2 ∈ st.map f, v2.version = a.version → v2 = f a := by
  intro v2 hv2 hveq
  rcases List.mem_map.mp hv2 with ⟨w, hw, rfl⟩
  have hwa : w.version = a.version := by rw [← hver w]; exact hveq
  rw [version_inj hnodup hw ha hwa]

/-- A state with no entry in a stage lists no versions for it. -/
theorem versionsInStage_nil_of {st : RegistryState} {s : Stage}
    (h : ∀ v ∈ st, ¬ v.stage = s) : versionsInStage st s = [] := by
  induction st with
  | nil => rfl
  | cons w rest ih =>
    rw [versionsInStage, if_neg (h w (List.mem_cons_self w rest))]
    exact ih (fun v hv => h v (List.mem_cons_of_mem w hv))

/-- When, over a state with distinct version numbers, membership of the
image in a stage is equivalent to carrying one distinguished version
number, that stage of the mapped state holds exactly that number. -/
theorem versionsInStage_map_single {s : Stage} {f : ModelVersion → ModelVersion}
    (hver : ∀ v, (f v).version = v.version) :
    ∀ {st : RegistryState} {c : ModelVersion}, c ∈ st →
      (st.map (fun v => v.version)).Nodup →
      (∀ v ∈ st, ((f v).stage = s ↔ v.version = c.version)) →
      versionsInStage (st.map f) s = [c.version] := by
  intro st
  induction st with
  | nil => intro c hc; cases hc
  | cons w rest ih =>
    intro c hc hnodup hiff
    simp only [List.map_cons, List.nodup_cons] at hnodup
    by_cases hw : w.version = c.version
    · have hfw : (f w).stage = s := (hiff w (List.mem_cons_self w rest)).mpr hw
      rw [List.map_cons, versionsInStage, if_pos hfw, hver w, hw]
      have htail : versionsInStage (rest.map f) s = [] := by
        apply versionsInStage_nil_of
        intro u hu
        rcases List.mem_map.mp hu with ⟨x, hx, rfl⟩
        intro hus
        have hxv : x.version = c.version :=
          (hiff x (List.mem_cons_of_mem w hx)).mp hus
        exact hnodup.1 (by rw [hw, ← hxv]; exact List.mem_map_of_mem (fun v => v.version) hx)
      rw [htail]
    · have hfw : ¬ (f w).stage = s :=
        fun hh => hw ((hiff w (List.mem_cons_self w rest)).mp hh)
      have hc2 : c ∈ rest := by
        rcases List.mem_cons.mp hc with rfl | h2
        · exact absurd rfl hw
        · exact h2
      rw [List.map_cons, versionsInStage, if_neg hfw]
      exact ih hc2 hnodup.2 (fun v hv => hiff v (List.mem_cons_of_mem w hv))

/-- Staying in the same stage is an allowed step. -/
theorem allowedStep_refl (s : Stage) : allowedStep s s = true := by
  unfold allowedStep
  rw [if_pos rfl]

/-- An unchanged state performs only allowed steps. -/
theorem stagesStep_refl {st : RegistryState}
    (hnodup : (st.map (fun v => v.version)).Nodup) : stagesStep st st := by
  intro v hv v2 hv2 hveq
  rw [version_inj hnodup hv2 hv hveq]
  exact allowedStep_refl v.stage

/-- A version-preserving map whose per-entry stage moves are allowed
performs only allowed steps. -/
theorem stagesStep_map {st : RegistryState} {f : ModelVersion → ModelVersion}
    (hver : ∀ v, (f v).version = v.version)
    (hnodup : (st.map (fun v => v.version)).Nodup)
    (hstep : ∀ v ∈ st, allowedStep v.stage ((f v).stage) = true) :
    stagesStep st (st.map f) := by
  intro v hv v2 hv2 hveq
  rw [mem_map_version_eq hver hnodup hv v2 hv2 hveq]
  exact hstep v hv

/-- Inversion of a successful model load: the stage had a latest version
and the returned handle is its stored artifact. -/
theorem load_model_ok {env : Env} {s : Stage} {pf : PredictFn}
    (h : load_model env s = Except.ok pf) :
    ∃ v, get_latest_versions env.registry s = some v ∧
      pf = env.artifacts v.version ∧ v ∈ env.registry ∧ v.stage = s := by
  unfold load_model at h
  split at h
  · exact Except.noConfusion h
  · next v heq =>
    split at h
    · exact Except.noConfusion h
    · injection h with h2
      rcases get_latest_mem heq with ⟨hmem, hstage⟩
      exact ⟨v, heq, h2.symm, hmem, hstage⟩

/-- With the Production artifact fetch failing, loading the Production
model always fails. -/
theorem load_model_fail_prod {env : Env}
    (hf : env.faults.loadProductionFails = true) :
    ∃ e, load_model env Stage.production = Except.error e := by
  unfold load_model
  split
  · exact ⟨_, rfl⟩
  · have hflag : loadFailFlag env.faults Stage.production = true := hf
    rw [hflag]
    exact ⟨_, rfl⟩

/-- With the Staging artifact fetch failing, loading the Staging model
always fails. -/
theorem load_model_fail_stag {env : Env}
    (hf : env.faults.loadStagingFails = true) :
    ∃ e, load_model env Stage.staging = Except.error e := by
  unfold load_model
  split
  · exact ⟨_, rfl⟩
  · have hflag : loadFailFlag env.faults Stage.staging = true := hf
    rw [hflag]
    exact ⟨_, rfl⟩

/-- Equation for the keep branch: when the candidate metric is not
strictly smaller, the decision keeps the incumbent and the registry is
untouched, whatever the fault flags say. -/
theorem evalDecide_keep_eq (env : Env) {pm sm : ℚ} (hge : ¬ sm < pm) :
    evalDecide env pm sm = (Except.ok (keepRecord env pm sm), env.registry) := by
  simp [evalDecide, hge]

/-- Equation for the promote branch: with a strictly smaller candidate
metric, a present Staging version and no registry faults, the decision
promotes and performs the archiving transition. -/
theorem evalDecide_promote_eq (env : Env) {pm sm : ℚ} {cand : ModelVersion}
    (hlt : sm < pm) (hsl : env.faults.stagingLookupFails = false)
    (hg : get_latest_versions env.registry Stage.staging = some cand)
    (htf : env.faults.transitionFails = false) :
    evalDecide env pm sm =
      (Except.ok (promoteRecord env pm sm cand),
       transition_model_version_stage env.registry cand.version
         Stage.production true) := by
  simp [evalDecide, hlt, hsl, hg, htf]

/-- The decision tail either leaves the registry unchanged, or succeeds
with a Promote record and the archiving transition of the candidate. -/
theorem evalDecide_shape (env : Env) (pm sm : ℚ) :
    (evalDecide env pm sm).2 = env.registry ∨
    ∃ cand, get_latest_versions env.registry Stage.staging = some cand ∧
      evalDecide env pm sm =
        (Except.ok (promoteRecord env pm sm cand),
         transition_model_version_stage env.registry cand.version
           Stage.production true) := by
  by_cases hlt : sm < pm
  · by_cases hsl : env.faults.stagingLookupFails = true
    · left; simp [evalDecide, hlt, hsl]
    · rw [Bool.not_eq_true] at hsl
      cases hg : get_latest_versions env.registry Stage.staging with
      | none => left; simp [evalDecide, hlt, hsl, hg]
      | some cand =>
        by_cases htf : env.faults.transitionFails = true
        · left; simp [evalDecide, hlt, hsl, hg, htf]
        · rw [Bool.not_eq_true] at htf
          right
          exact ⟨cand, rfl, evalDecide_promote_eq env hlt hsl hg htf⟩
  · left; rw [evalDecide_keep_eq env hlt]

/-- Equation: failing to load the Production model aborts the call. -/
theorem evaluate_loadp_err {env : Env} {e : EvalError}
    (h1 : load_model env Stage.production = Except.error e) :
    evaluate env = (Except.error e, env.registry) := by
  simp [evaluate, h1]

/-- Equation: failing to load the Staging model aborts the call. -/
theorem evaluate_loads_err {env : Env} {prodFn : PredictFn} {e : EvalError}
    (h1 : load_model env Stage.production = Except.ok prodFn)
    (h2 : load_model env Stage.staging = Except.error e) :
    evaluate env = (Except.error e, env.registry) := by
  simp [evaluate, h1, h2]

/-- Equation: a scoring fault aborts the call. -/
theorem evaluate_scoring_err {env : Env} {prodFn stagFn : PredictFn}
    (h1 : load_model env Stage.production = Except.ok prodFn)
    (h2 : load_model env Stage.staging = Except.ok stagFn)
    (hsf : env.faults.scoringFails = true) :
    evaluate env = (Except.error EvalError.scoringError, env.registry) := by
  simp [evaluate, h1, h2, hsf]

/-- Equation: with both models loaded and scoring succeeding, the call
is the decision tail applied to the two mean squared errors, both taken
over the same feature matrix and the same target vector. -/
theorem evaluate_eq_decide {env : Env} {prodFn stagFn : PredictFn}
    (h1 : load_model env Stage.production = Except.ok prodFn)
    (h2 : load_model env Stage.staging = Except.ok stagFn)
    (hsf : env.faults.scoringFails = false) :
    evaluate env =
      evalDecide env
        (mean_squared_error (target env.dataset) (prodFn (featureMatrix env.dataset)))
        (mean_squared_error (target env.dataset) (stagFn (featureMatrix env.dataset))) := by
  simp [evaluate, h1, h2, hsf]

/-- An evaluation call either leaves the registry unchanged, or succeeds
with a Promote record and the archiving transition of the candidate. -/
theorem evaluate_shape (env : Env) :
    (evaluate env).2 = env.registry ∨
    ∃ cand d, get_latest_versions env.registry Stage.staging = some cand ∧
      evaluate env =
        (Except.ok d,
         transition_model_version_stage env.registry cand.version
           Stage.production true) ∧
      d.outcome = Outcome.promote := by
  cases h1 : load_model env Stage.production with
  | error e => left; rw [evaluate_loadp_err h1]
  | ok prodFn =>
    cases h2 : load_model env Stage.staging with
    | error e => left; rw [evaluate_loads_err h1 h2]
    | ok stagFn =>
      by_cases hsf : env.faults.scoringFails = true
      · left; rw [evaluate_scoring_err h1 h2 hsf]
      · rw [Bool.not_eq_true] at hsf
        rw [evaluate_eq_decide h1 h2 hsf]
        rcases evalDecide_shape env
            (mean_squared_error (target env.dataset) (prodFn (featureMatrix env.dataset)))
            (mean_squared_error (target env.dataset) (stagFn (featureMatrix env.dataset)))
          with hs | ⟨cand, hg, heq⟩
        · left; exact hs
        · right; exact ⟨cand, _, hg, heq, rfl⟩

/-- A failing evaluation call leaves the registry exactly as it was. -/
theorem evaluate_error_unchanged {env : Env} {e : EvalError}
    {st2 : RegistryState} (h : evaluate env = (Except.error e, st2)) :
    st2 = env.registry := by
  rcases evaluate_shape env with hs | ⟨cand, d, hg, heq, hout⟩
  · rw [h] at hs; exact hs
  · rw [h] at heq
    exact Except.noConfusion (congrArg Prod.fst heq)

/-- A set load or scoring fault always surfaces as an error result. -/
theorem evaluate_fault_error (env : Env)
    (hflag : env.faults.loadProductionFails = true ∨
      env.faults.loadStagingFails = true ∨ env.faults.scoringFails = true) :
    ∃ e, (evaluate env).1 = Except.error e := by
  cases h1 : load_model env Stage.production with
  | error e => exact ⟨e, by rw [evaluate_loadp_err h1]⟩
  | ok prodFn =>
    cases h2 : load_model env Stage.staging with
    | error e => exact ⟨e, by rw [evaluate_loads_err h1 h2]⟩
    | ok stagFn =>
      rcases hflag with hp | hs | hsc
      · rcases load_model_fail_prod hp with ⟨e, he⟩
        rw [he] at h1
        exact Except.noConfusion h1
      · rcases load_model_fail_stag hs with ⟨e, he⟩
        rw [he] at h2
        exact Except.noConfusion h2
      · exact ⟨_, by rw [evaluate_scoring_err h1 h2 hsc]⟩

/-- With the stage-transition call failing, no Promote decision can be
returned: a successful result is a KeepIncumbent one. -/
theorem evalDecide_transition_fault {env : Env}
    (htf : env.faults.transitionFails = true) (pm sm : ℚ) :
    ∀ d, (evalDecide env pm sm).1 = Except.ok d →
      d.outcome = Outcome.keepIncumbent := by
  intro d hd
  by_cases hlt : sm < pm
  · by_cases hsl : env.faults.stagingLookupFails = true
    · simp [evalDecide, hlt, hsl] at hd
    · rw [Bool.not_eq_true] at hsl
      cases hg : get_latest_versions env.registry Stage.staging with
      | none => simp [evalDecide, hlt, hsl, hg] at hd
      | some cand => simp [evalDecide, hlt, hsl, hg, htf] at hd
  · rw [evalDecide_keep_eq env hlt] at hd
    have hd2 : Except.ok (keepRecord env pm sm) = Except.ok d := hd
    injection hd2 with h2
    rw [← h2]
    rfl

/-- Lifting of `evalDecide_transition_fault` to the whole call. -/
theorem evaluate_ok_transition_fault {env : Env}
    (htf : env.faults.transitionFails = true) :
    ∀ d, (evaluate env).1 = Except.ok d →
      d.outcome = Outcome.keepIncumbent := by
  intro d hd
  cases h1 : load_model env Stage.production with
  | error e => rw [evaluate_loadp_err h1] at hd; exact Except.noConfusion hd
  | ok prodFn =>
    cases h2 : load_model env Stage.staging with
    | error e => rw [evaluate_loads_err h1 h2] at hd; exact Except.noConfusion hd
    | ok stagFn =>
      by_cases hsf : env.faults.scoringFails = true
      · rw [evaluate_scoring_err h1 h2 hsf] at hd
        exact Except.noConfusion hd
      · rw [Bool.not_eq_true] at hsf
        rw [evaluate_eq_decide h1 h2 hsf] at hd
        exact evalDecide_transition_fault htf _ _ d hd

/-- The mean squared error is non-negative. -/
theorem mean_squared_error_nonneg (y p : List ℚ) :
    0 ≤ mean_squared_error y p := by
  unfold mean_squared_error
  apply div_nonneg
  · apply List.sum_nonneg
    intro x hx
    rcases List.mem_map.mp hx with ⟨q, hq, rfl⟩
    exact sq_nonneg _
  · exact_mod_cast Nat.zero_le _

/-- The source compares the square roots of the two mean squared errors
(`squared=False`); that comparison agrees with comparing the mean
squared errors themselves, so the decision branch is the same. -/
theorem sqrt_mse_lt_iff (y p q : List ℚ) :
    Real.sqrt ((mean_squared_error y p : ℚ) : ℝ) <
        Real.sqrt ((mean_squared_error y q : ℚ) : ℝ) ↔
      mean_squared_error y p < mean_squared_error y q := by
  rw [Real.sqrt_lt_sqrt_iff (by exact_mod_cast mean_squared_error_nonneg y p)]
  exact_mod_cast Iff.rfl

/-- The stage transition is an entrywise map over the state. -/
theorem transition_as_map (st : RegistryState) (ver : Nat) (ns : Stage)
    (ae : Bool) :
    transition_model_version_stage st ver ns ae = st.map (transOne ver ns ae) :=
  rfl

/-- Loading from a stage with a latest version and no injected fault
returns the stored artifact of that version. -/
theorem load_model_eq_ok {env : Env} {s : Stage} {v : ModelVersion}
    (hflag : loadFailFlag env.faults s = false)
    (hg : get_latest_versions env.registry s = some v) :
    load_model env s = Except.ok (env.artifacts v.version) := by
  simp [load_model, hg, hflag]

/-- Any successful decision records the Staging metric as the candidate
metric and the Production metric as the incumbent metric. -/
theorem evalDecide_ok_metrics {env : Env} {pm sm : ℚ} {d : PromotionDecision}
    (h : (evalDecide env pm sm).1 = Except.ok d) :
    d.candidate_metric = sm ∧ d.incumbent_metric = some pm := by
  by_cases hlt : sm < pm
  · by_cases hsl : env.faults.stagingLookupFails = true
    · simp [evalDecide, hlt, hsl] at h
    · rw [Bool.not_eq_true] at hsl
      cases hg : get_latest_versions env.registry Stage.staging with
      | none => simp [evalDecide, hlt, hsl, hg] at h
      | some cand =>
        by_cases htf : env.faults.transitionFails = true
        · simp [evalDecide, hlt, hsl, hg, htf] at h
        · rw [Bool.not_eq_true] at htf
          rw [evalDecide_promote_eq env hlt hsl hg htf] at h
          have h3 : Except.ok (promoteRecord env pm sm cand) = Except.ok d := h
          injection h3 with h4
          rw [← h4]
          exact ⟨rfl, rfl⟩
  · rw [evalDecide_keep_eq env hlt] at h
    have h3 : Except.ok (keepRecord env pm sm) = Except.ok d := h
    injection h3 with h4
    rw [← h4]
    exact ⟨rfl, rfl⟩

/-- Concrete value of the candidate metric on `envPromote`. -/
theorem metric_envPromote_cand :
    metricOf envPromote { version := 2, stage := Stage.staging } = 0 := by
  norm_num [metricOf, mean_squared_error, envPromote, target, featureMatrix,
    features, featureValue, constPredict, row0]

/-- Concrete value of the incumbent metric on `envPromote`. -/
theorem metric_envPromote_inc :
    metricOf envPromote { version := 1, stage := Stage.production } = 4 := by
  norm_num [metricOf, mean_squared_error, envPromote, target, featureMatrix,
    features, featureValue, constPredict, row0]

/-- Concrete value of the candidate metric on `envKeep`. -/
theorem metric_envKeep_cand :
    metricOf envKeep { version := 2, stage := Stage.staging } = 4 := by
  norm_num [metricOf, mean_squared_error, envKeep, target, featureMatrix,
    features, featureValue, constPredict, row0]

/-- Concrete value of the incumbent metric on `envKeep`. -/
theorem metric_envKeep_inc :
    metricOf envKeep { version := 1, stage := Stage.production } = 0 := by
  norm_num [metricOf, mean_squared_error, envKeep, target, featureMatrix,
    features, featureValue, constPredict, row0]

/-- The evaluation call on `envKeep` keeps the incumbent and leaves the
registry unchanged. -/
theorem evaluate_envKeep_eq :
    evaluate envKeep = (Except.ok keepDecision, envKeep.registry) := by
  have h1 : load_model envKeep Stage.production =
      Except.ok (envKeep.artifacts 1) := rfl
  have h2 : load_model envKeep Stage.staging =
      Except.ok (envKeep.artifacts 2) := rfl
  rw [evaluate_eq_decide h1 h2 rfl]
  exact evalDecide_keep_eq envKeep
    (show ¬ metricOf envKeep { version := 2, stage := Stage.staging } <
        metricOf envKeep { version := 1, stage := Stage.production } from by
      rw [metric_envKeep_cand, metric_envKeep_inc]; decide)

/-- C1 counterexample: on a registry with a Staging version and no
Production version, the evaluation call fails (the script loads the
Production model first, unconditionally) and performs no registry
write, instead of succeeding with a PromoteNoIncumbent outcome as the
claim states. -/
theorem c1_counterexample :
    evaluate envNoProd =
      (Except.error (EvalError.noVersionInStage Stage.production),
       envNoProd.registry) := by
  rfl

/-- C1 (amended): on every registry state with no Production version,
the evaluation call fails with the Production model-resolution error
and leaves the registry unchanged; the script has no PromoteNoIncumbent
path. -/
theorem c1_no_incumbent_fails (env : Env)
    (hprod : get_latest_versions env.registry Stage.production = Option.none) :
    evaluate env =
      (Except.error (EvalError.noVersionInStage Stage.production),
       env.registry) := by
  have h1 : load_model env Stage.production =
      Except.error (EvalError.noVersionInStage Stage.production) := by
    simp [load_model, hprod]
  exact evaluate_loadp_err h1

/-- C1 witness: the amended statement evaluated on the concrete
staging-only registry. -/
theorem c1_witness :
    evaluate envNoProd =
      (Except.error (EvalError.noVersionInStage Stage.production),
       envNoProd.registry) :=
  c1_no_incumbent_fails envNoProd rfl

/-- C2: with an incumbent Production version, a latest Staging
candidate, no injected faults, pairwise-distinct version numbers and a
strictly smaller candidate metric, the call returns a Promote decision;
afterwards every registry entry carrying the incumbent version number
is Archived and Production holds exactly the candidate version
number. -/
theorem c2_promote (env : Env) (inc cand : ModelVersion)
    (hf : env.faults = noFaults)
    (hnodup : (env.registry.map (fun v => v.version)).Nodup)
    (hinc : get_latest_versions env.registry Stage.production = some inc)
    (hcand : get_latest_versions env.registry Stage.staging = some cand)
    (hlt : metricOf env cand < metricOf env inc) :
    ∃ d, (evaluate env).1 = Except.ok d ∧ d.outcome = Outcome.promote ∧
      (∀ v2 ∈ (evaluate env).2, v2.version = inc.version →
        v2.stage = Stage.archived) ∧
      versionsInStage (evaluate env).2 Stage.production = [cand.version] := by
  have hmi := get_latest_mem hinc
  have hmc := get_latest_mem hcand
  have hne : ¬ inc.version = cand.version := by
    intro h
    have heq : inc = cand := version_inj hnodup hmi.1 hmc.1 h
    have hcon : Stage.production = Stage.staging := by
      rw [← hmi.2, heq, hmc.2]
    exact Stage.noConfusion hcon
  have hflagp : loadFailFlag env.faults Stage.production = false := by rw [hf]; rfl
  have hflags : loadFailFlag env.faults Stage.staging = false := by rw [hf]; rfl
  have h1 := load_model_eq_ok hflagp hinc
  have h2 := load_model_eq_ok hflags hcand
  have hsf : env.faults.scoringFails = false := by rw [hf]; rfl
  have hsl : env.faults.stagingLookupFails = false := by rw [hf]; rfl
  have htf : env.faults.transitionFails = false := by rw [hf]; rfl
  have hev : evaluate env =
      (Except.ok (promoteRecord env (metricOf env inc) (metricOf env cand) cand),
       transition_model_version_stage env.registry cand.version
         Stage.production true) := by
    rw [evaluate_eq_decide h1 h2 hsf]
    exact evalDecide_promote_eq env hlt hsl hcand htf
  have h22 : (evaluate env).2 =
      env.registry.map (transOne cand.version Stage.production true) := by
    rw [hev, transition_as_map]
  refine ⟨promoteRecord env (metricOf env inc) (metricOf env cand) cand,
    by rw [hev], rfl, ?_, ?_⟩
  · rw [h22]
    intro v2 hv2 hveq
    have hv2e : v2 = transOne cand.version Stage.production true inc :=
      mem_map_version_eq (transOne_version cand.version Stage.production true)
        hnodup hmi.1 v2 hv2 hveq
    rw [hv2e]
    unfold transOne
    rw [if_neg hne, if_pos ⟨rfl, hmi.2⟩]
  · rw [h22]
    apply versionsInStage_map_single
      (transOne_version cand.version Stage.production true) hmc.1 hnodup
    intro v hv
    constructor
    · intro hvs
      by_cases hvv : v.version = cand.version
      · exact hvv
      · exfalso
        unfold transOne at hvs
        rw [if_neg hvv] at hvs
        by_cases hvp : v.stage = Stage.production
        · rw [if_pos ⟨rfl, hvp⟩] at hvs
          exact Stage.noConfusion hvs
        · rw [if_neg (fun hcon => hvp hcon.2)] at hvs
          exact hvp hvs
    · intro hvv
      unfold transOne
      rw [if_pos hvv]

/-- C2 witness: the concrete two-version registry where the Staging
candidate scores strictly better. -/
theorem c2_witness :
    ∃ d, (evaluate envPromote).1 = Except.ok d ∧
      d.outcome = Outcome.promote ∧
      (∀ v2 ∈ (evaluate envPromote).2, v2.version = 1 →
        v2.stage = Stage.archived) ∧
      versionsInStage (evaluate envPromote).2 Stage.production = [2] :=
  c2_promote envPromote { version := 1, stage := Stage.production }
    { version := 2, stage := Stage.staging } rfl (by decide) rfl rfl
    (by rw [metric_envPromote_cand, metric_envPromote_inc]; decide)

/-- C3: with an incumbent, a candidate, no injected faults and a
candidate metric that is not strictly smaller (ties included), the call
returns a KeepIncumbent decision and leaves the registry unchanged. -/
theorem c3_keep (env : Env) (inc cand : ModelVersion)
    (hf : env.faults = noFaults)
    (hinc : get_latest_versions env.registry Stage.production = some inc)
    (hcand : get_latest_versions env.registry Stage.staging = some cand)
    (hge : ¬ metricOf env cand < metricOf env inc) :
    ∃ d, evaluate env = (Except.ok d, env.registry) ∧
      d.outcome = Outcome.keepIncumbent := by
  have hflagp : loadFailFlag env.faults Stage.production = false := by rw [hf]; rfl
  have hflags : loadFailFlag env.faults Stage.staging = false := by rw [hf]; rfl
  have h1 := load_model_eq_ok hflagp hinc
  have h2 := load_model_eq_ok hflags hcand
  have hsf : env.faults.scoringFails = false := by rw [hf]; rfl
  refine ⟨keepRecord env (metricOf env inc) (metricOf env cand), ?_, rfl⟩
  rw [evaluate_eq_decide h1 h2 hsf]
  exact evalDecide_keep_eq env hge

/-- C3 witness: the concrete two-version registry where the candidate
scores strictly worse. -/
theorem c3_witness :
    ∃ d, evaluate envKeep = (Except.ok d, envKeep.registry) ∧
      d.outcome = Outcome.keepIncumbent :=
  c3_keep envKeep { version := 1, stage := Stage.production }
    { version := 2, stage := Stage.staging } rfl rfl rfl
    (by rw [metric_envKeep_cand, metric_envKeep_inc]; decide)

/-- C4 counterexample: on the empty registry (no Staging version), the
claim as stated fails: the call does fail with no write, but with the
Production resolution error raised by the earlier incumbent load, not
with the Staging (NoCandidateError) one. -/
theorem c4_counterexample :
    evaluate envEmpty =
      (Except.error (EvalError.noVersionInStage Stage.production),
       envEmpty.registry) ∧
    EvalError.noVersionInStage Stage.production ≠
      EvalError.noVersionInStage Stage.staging ∧
    get_latest_versions envEmpty.registry Stage.staging = Option.none := by
  refine ⟨rfl, by decide, rfl⟩

/-- C4 (amended): on every registry state with no Staging version the
call fails and no registry write occurs; the error is the Staging
resolution error (the NoCandidateError of the spec) whenever a
Production version exists and its load does not itself fault, while
with no Production version either, the Production load error is raised
first. -/
theorem c4_no_candidate_fails (env : Env)
    (hstag : get_latest_versions env.registry Stage.staging = Option.none) :
    (∃ e, evaluate env = (Except.error e, env.registry)) ∧
    (env.faults.loadProductionFails = false →
      ∀ inc, get_latest_versions env.registry Stage.production = some inc →
        evaluate env =
          (Except.error (EvalError.noVersionInStage Stage.staging),
           env.registry)) := by
  have h2 : load_model env Stage.staging =
      Except.error (EvalError.noVersionInStage Stage.staging) := by
    simp [load_model, hstag]
  constructor
  · cases h1 : load_model env Stage.production with
    | error e => exact ⟨e, evaluate_loadp_err h1⟩
    | ok prodFn => exact ⟨_, evaluate_loads_err h1 h2⟩
  · intro hlp inc hinc
    have hflagp : loadFailFlag env.faults Stage.production = false := hlp
    have h1 := load_model_eq_ok hflagp hinc
    exact evaluate_loads_err h1 h2

/-- C4 witness: the amended statement on the concrete production-only
registry, where the raised error is the Staging one. -/
theorem c4_witness :
    evaluate envProdOnly =
      (Except.error (EvalError.noVersionInStage Stage.staging),
       envProdOnly.registry) :=
  (c4_no_candidate_fails envProdOnly rfl).2 rfl
    { version := 1, stage := Stage.production } rfl

/-- C5: the script catches nothing: whenever the result is an error the
registry is exactly as before (no partial promotion state); a load or
scoring fault always surfaces as an error; and with the transition call
failing no Promote decision can complete. -/
theorem c5_propagation (env : Env) :
    (∀ e st2, evaluate env = (Except.error e, st2) → st2 = env.registry) ∧
    ((env.faults.loadProductionFails = true ∨
        env.faults.loadStagingFails = true ∨
        env.faults.scoringFails = true) →
      ∃ e, (evaluate env).1 = Except.error e) ∧
    (env.faults.transitionFails = true →
      ∀ d, (evaluate env).1 = Except.ok d →
        d.outcome = Outcome.keepIncumbent) :=
  ⟨fun _ _ h => evaluate_error_unchanged h,
   evaluate_fault_error env,
   fun htf => evaluate_ok_transition_fault htf⟩

/-- C5 witness: with the Production artifact fetch failing on the
concrete two-version registry, the call surfaces an error. -/
theorem c5_witness : ∃ e, (evaluate envFault).1 = Except.error e :=
  (c5_propagation envFault).2.1 (Or.inl rfl)

/-- C6: determinism and idempotence of the decision: when a call leaves
the registry unchanged, running the call again on the resulting state
with the same dataset and collaborators returns the very same result. -/
theorem c6_idempotent (env : Env) (r1 : Except EvalError PromotionDecision)
    (st1 : RegistryState) (h : evaluate env = (r1, st1))
    (hunch : st1 = env.registry) :
    evaluate { env with registry := st1 } = (r1, st1) := by
  subst hunch
  have he : { env with registry := env.registry } = env := rfl
  rw [he, h]

/-- C6 witness: the keep call on the concrete registry, run twice. -/
theorem c6_witness :
    evaluate { envKeep with registry := envKeep.registry } =
      (Except.ok keepDecision, envKeep.registry) :=
  c6_idempotent envKeep (Except.ok keepDecision) envKeep.registry
    evaluate_envKeep_eq rfl

/-- C7: on states with pairwise-distinct version numbers, the training
promotion, the evaluation call and the deployment promotion each move
every version only along the allowed steps None to Staging, Staging to
Production, Staging to Archived, Production to Archived, or leave it in
place; in particular nothing ever leaves Archived. -/
theorem c7_stage_machine (env : Env)
    (hnodup : (env.registry.map (fun v => v.version)).Nodup) :
    stagesStep env.registry (train_model_promotion env.registry) ∧
    stagesStep env.registry (evaluate env).2 ∧
    ∀ rf, stagesStep env.registry
      (deploy_production_model env.registry rf).2 := by
  refine ⟨?_, ?_, ?_⟩
  · cases hg : get_latest_versions env.registry Stage.none with
    | none =>
      have hd : train_model_promotion env.registry = env.registry := by
        simp [train_model_promotion, hg]
      rw [hd]
      exact stagesStep_refl hnodup
    | some v0 =>
      have hm := get_latest_mem hg
      have hd : train_model_promotion env.registry =
          env.registry.map (transOne v0.version Stage.staging false) := by
        simp [train_model_promotion, hg, transition_as_map]
      rw [hd]
      apply stagesStep_map (transOne_version v0.version Stage.staging false)
        hnodup
      intro v hv
      by_cases hvv : v.version = v0.version
      · have hvc : v = v0 := version_inj hnodup hv hm.1 hvv
        rw [hvc]
        unfold transOne
        rw [if_pos rfl, hm.2]
        rfl
      · unfold transOne
        rw [if_neg hvv, if_neg (fun hcon => Bool.noConfusion hcon.1)]
        exact allowedStep_refl v.stage
  · rcases evaluate_shape env with hs | ⟨cand, d, hg, heq, hout⟩
    · rw [hs]; exact stagesStep_refl hnodup
    · have hm := get_latest_mem hg
      have h22 : (evaluate env).2 =
          env.registry.map (transOne cand.version Stage.production true) := by
        rw [heq, transition_as_map]
      rw [h22]
      apply stagesStep_map (transOne_version cand.version Stage.production true)
        hnodup
      intro v hv
      by_cases hvv : v.version = cand.version
      · have hvc : v = cand := version_inj hnodup hv hm.1 hvv
        rw [hvc]
        unfold transOne
        rw [if_pos rfl, hm.2]
        rfl
      · unfold transOne
        rw [if_neg hvv]
        by_cases hvp : v.stage = Stage.production
        · rw [if_pos ⟨rfl, hvp⟩, hvp]
          rfl
        · rw [if_neg (fun hcon => hvp hcon.2)]
          exact allowedStep_refl v.stage
  · intro rf
    by_cases hrf : rf = true
    · have hd : (deploy_production_model env.registry rf).2 = env.registry := by
        simp [deploy_production_model, hrf]
      rw [hd]
      exact stagesStep_refl hnodup
    · rw [Bool.not_eq_true] at hrf
      cases hp : get_latest_versions env.registry Stage.production with
      | some pv =>
        have hd : (deploy_production_model env.registry rf).2 = env.registry := by
          simp [deploy_production_model, hrf, hp]
        rw [hd]
        exact stagesStep_refl hnodup
      | none =>
        cases hs2 : get_latest_versions env.registry Stage.staging with
        | none =>
          have hd : (deploy_production_model env.registry rf).2 = env.registry := by
            simp [deploy_production_model, hrf, hp, hs2]
          rw [hd]
          exact stagesStep_refl hnodup
        | some sv =>
          have hm := get_latest_mem hs2
          have hd : (deploy_production_model env.registry rf).2 =
              env.registry.map (transOne sv.version Stage.production false) := by
            simp [deploy_production_model, hrf, hp, hs2, transition_as_map]
          rw [hd]
          apply stagesStep_map
            (transOne_version sv.version Stage.production false) hnodup
          intro v hv
          by_cases hvv : v.version = sv.version
          · have hvc : v = sv := version_inj hnodup hv hm.1 hvv
            rw [hvc]
            unfold transOne
            rw [if_pos rfl, hm.2]
            rfl
          · unfold transOne
            rw [if_neg hvv, if_neg (fun hcon => Bool.noConfusion hcon.1)]
            exact allowedStep_refl v.stage

/-- C7 witness: the evaluation call on the concrete two-version
registry performs only allowed stage steps. -/
theorem c7_witness :
    stagesStep envPromote.registry (evaluate envPromote).2 :=
  (c7_stage_machine envPromote (by decide)).2.1

/-- C8: every successful call scored the candidate and the incumbent on
the identical feature matrix — the seven named columns of `features` in
source order, extracted from the dataset loaded once — and recorded for
both the same mean-squared-error procedure against the same target
vector. -/
theorem c8_same_inputs (env : Env) (d : PromotionDecision)
    (h : (evaluate env).1 = Except.ok d) :
    features = ["product_weight_g", "product_volume_cm3", "price",
      "freight_value", "purchase_hour", "purchase_day_of_week",
      "purchase_month"] ∧
    ∃ inc cand, get_latest_versions env.registry Stage.production = some inc ∧
      get_latest_versions env.registry Stage.staging = some cand ∧
      d.candidate_metric =
        mean_squared_error (target env.dataset)
          (env.artifacts cand.version (featureMatrix env.dataset)) ∧
      d.incumbent_metric =
        some (mean_squared_error (target env.dataset)
          (env.artifacts inc.version (featureMatrix env.dataset))) := by
  refine ⟨rfl, ?_⟩
  cases h1 : load_model env Stage.production with
  | error e =>
    rw [evaluate_loadp_err h1] at h
    exact Except.noConfusion h
  | ok prodFn =>
    cases h2 : load_model env Stage.staging with
    | error e =>
      rw [evaluate_loads_err h1 h2] at h
      exact Except.noConfusion h
    | ok stagFn =>
      by_cases hsf : env.faults.scoringFails = true
      · rw [evaluate_scoring_err h1 h2 hsf] at h
        exact Except.noConfusion h
      · rw [Bool.not_eq_true] at hsf
        rw [evaluate_eq_decide h1 h2 hsf] at h
        rcases load_model_ok h1 with ⟨inc, hinc, hpf, _, _⟩
        rcases load_model_ok h2 with ⟨cand, hcand, hsfn, _, _⟩
        rcases evalDecide_ok_metrics h with ⟨hcm, him⟩
        refine ⟨inc, cand, hinc, hcand, ?_, ?_⟩
        · rw [hcm, hsfn]
        · rw [him, hpf]

/-- C8 witness: the concrete keep call records both metrics computed by
the shared procedure on the shared inputs. -/
theorem c8_witness :
    features = ["product_weight_g", "product_volume_cm3", "price",
      "freight_value", "purchase_hour", "purchase_day_of_week",
      "purchase_month"] ∧
    ∃ inc cand,
      get_latest_versions envKeep.registry Stage.production = some inc ∧
      get_latest_versions envKeep.registry Stage.staging = some cand ∧
      keepDecision.candidate_metric =
        mean_squared_error (target envKeep.dataset)
          (envKeep.artifacts cand.version (featureMatrix envKeep.dataset)) ∧
      keepDecision.incumbent_metric =
        some (mean_squared_error (target envKeep.dataset)
          (envKeep.artifacts inc.version (featureMatrix envKeep.dataset))) :=
  c8_same_inputs envKeep keepDecision (by rw [evaluate_envKeep_eq])

/-- C9: with no Production version and a latest Staging version, the
deployment script promotes the Staging version to Production
unconditionally — the function consults only the registry, never a
model artifact, a dataset or a metric — and afterwards every entry
carrying that version number is in Production. -/
theorem c9_unconditional (st : RegistryState) (sv : ModelVersion)
    (hprod : get_latest_versions st Stage.production = Option.none)
    (hstag : get_latest_versions st Stage.staging = some sv) :
    deploy_production_model st false =
      (DeployOutcome.promotedStaging sv.version,
       transition_model_version_stage st sv.version Stage.production false) ∧
    ∀ v2 ∈ (deploy_production_model st false).2, v2.version = sv.version →
      v2.stage = Stage.production := by
  have hd : deploy_production_model st false =
      (DeployOutcome.promotedStaging sv.version,
       transition_model_version_stage st sv.version Stage.production false) := by
    simp [deploy_production_model, hprod, hstag]
  refine ⟨hd, ?_⟩
  have h22 : (deploy_production_model st false).2 =
      st.map (transOne sv.version Stage.production false) := by
    rw [hd, transition_as_map]
  rw [h22]
  intro v2 hv2 hveq
  rcases List.mem_map.mp hv2 with ⟨w, hw, rfl⟩
  have hwv : w.version = sv.version := by
    rw [← transOne_version sv.version Stage.production false w]
    exact hveq
  unfold transOne
  rw [if_pos hwv]

/-- C9 witness: the concrete staging-only registry. -/
theorem c9_witness :
    deploy_production_model stagingOnly false =
      (DeployOutcome.promotedStaging 3,
       transition_model_version_stage stagingOnly 3 Stage.production false) ∧
    ∀ v2 ∈ (deploy_production_model stagingOnly false).2, v2.version = 3 →
      v2.stage = Stage.production :=
  c9_unconditional stagingOnly { version := 3, stage := Stage.staging } rfl rfl

/-- C10: once the training gate passes, the pipeline always starts the
evaluation and deployment steps; a failed evaluation only sets the
warning and the run still deploys, while a failed deployment exits with
code 1 (and a successful one with code 0). -/
theorem c10_pipeline (mode : Mode) (skipTraining : Bool) (r : StepResults)
    (hgate : trainingGatePasses mode skipTraining r = true) :
    (pipelineMain mode skipTraining r).ranEvaluation = true ∧
    (pipelineMain mode skipTraining r).ranDeployment = true ∧
    (r.evalOk = false →
      (pipelineMain mode skipTraining r).warnedEvaluationFailed = true) ∧
    (r.deployOk = false → (pipelineMain mode skipTraining r).exitCode = 1) ∧
    (r.deployOk = true → (pipelineMain mode skipTraining r).exitCode = 0) := by
  have hp : pipelineMain mode skipTraining r =
      { ranEvaluation := true, ranDeployment := true,
        warnedEvaluationFailed := !r.evalOk,
        exitCode := if r.deployOk = false then 1 else 0 } := by
    unfold pipelineMain
    rw [hgate, if_neg (fun hcon => Bool.noConfusion hcon)]
  rw [hp]
  refine ⟨rfl, rfl, ?_, ?_, ?_⟩
  · intro he
    rw [he]
    rfl
  · intro hdep
    rw [if_pos hdep]
  · intro hdep
    rw [if_neg (fun hcon => Bool.noConfusion (hdep.symm.trans hcon))]

/-- C10 witness: local mode, training succeeding, evaluation and
deployment both failing. -/
theorem c10_witness :
    (pipelineMain Mode.localMode false stepsEvalDeployFail).ranEvaluation = true ∧
    (pipelineMain Mode.localMode false stepsEvalDeployFail).ranDeployment = true ∧
    (stepsEvalDeployFail.evalOk = false →
      (pipelineMain Mode.localMode false stepsEvalDeployFail).warnedEvaluationFailed
        = true) ∧
    (stepsEvalDeployFail.deployOk = false →
      (pipelineMain Mode.localMode false stepsEvalDeployFail).exitCode = 1) ∧
    (stepsEvalDeployFail.deployOk = true →
      (pipelineMain Mode.localMode false stepsEvalDeployFail).exitCode = 0) :=
  c10_pipeline Mode.localMode false stepsEvalDeployFail rfl

end DeliveryEta
